import Mathlib

/-!
Verification of the Tempro ephemeral-email engine against its specification.

The Python source is shallowly embedded: wall-clock instants (`time.time()`,
`datetime.now()`) become integers counting microseconds — the resolution of
Python's `datetime` — so one second is `sec = 1000000` ticks and the source's
second-valued constants appear as `60 * sec`, `3600 * sec`, `86400 * sec`.
Python dicts become association lists over their string keys, and each method
becomes a pure function from the pre-state (plus the current time) to the
post-state and return value.
-/

/-- One second of wall-clock time in the microsecond time-scale of the embedding. -/
def sec : ℤ := 1000000

/-! ### Association-list model of Python dicts -/

/-- `m[k]` with a default, as used on a `defaultdict` (missing key yields the default). -/
def dget (m : List (String × α)) (k : String) (d : α) : α :=
  match m.find? (fun p => p.1 = k) with
  | some p => p.2
  | none => d

/-- `m[k] = v`: overwrite the entry for `k` in place, or append a fresh one. -/
def dset (m : List (String × α)) (k : String) (v : α) : List (String × α) :=
  if m.any (fun p => p.1 = k) then
    m.map (fun p => if p.1 = k then (k, v) else p)
  else
    m ++ [(k, v)]

/-- `m.get(k)` / `k in m`: lookup returning an option. -/
def dlookup (m : List (String × α)) (k : String) : Option α :=
  (m.find? (fun p => p.1 = k)).map (fun p => p.2)

/-- `del m[k]`: remove the entry for `k`. -/
def ddel (m : List (String × α)) (k : String) : List (String × α) :=
  m.filter (fun p => !(p.1 = k : Bool))

theorem find?_dset_self (m : List (String × α)) (k : String) (v : α) :
    (dset m k v).find? (fun p => p.1 = k) = some (k, v) := by
  unfold dset
  by_cases hany : (m.any fun p => decide (p.1 = k)) = true
  · rw [if_pos hany]
    induction m with
    | nil => simp at hany
    | cons p m ih =>
      simp only [List.any_cons, Bool.or_eq_true, decide_eq_true_eq] at hany
      by_cases hp : p.1 = k
      · simp [hp]
      · have hm : (m.any fun p => decide (p.1 = k)) = true := by
          rcases hany with h' | h'
          · exact absurd h' hp
          · exact h'
        rw [List.map_cons, if_neg hp, List.find?_cons_of_neg _ (by simp [hp])]
        exact ih hm
  · rw [if_neg hany]
    have hnone : m.find? (fun p => decide (p.1 = k)) = none := by
      rw [List.find?_eq_none]
      intro x hx
      have := List.any_eq_false.mp (Bool.not_eq_true _ ▸ hany) x hx
      simpa using this
    simp [List.find?_append, hnone]

theorem find?_map_overwrite (m : List (String × α)) (k k' : String) (v : α) (h : k' ≠ k) :
    (m.map (fun p => if p.1 = k then (k, v) else p)).find? (fun p => p.1 = k')
      = m.find? (fun p => p.1 = k') := by
  induction m with
  | nil => simp
  | cons p m ih =>
    by_cases hp : p.1 = k
    · have hp' : ¬ p.1 = k' := by rw [hp]; exact fun hh => h hh.symm
      have hk' : ¬ ((k, v) : String × α).1 = k' := fun hh => h hh.symm
      rw [List.map_cons, if_pos hp,
        List.find?_cons_of_neg _ (by simpa using hk'),
        List.find?_cons_of_neg _ (by simpa using hp')]
      exact ih
    · by_cases hq : p.1 = k'
      · rw [List.map_cons, if_neg hp, List.find?_cons_of_pos _ (by simpa using hq),
          List.find?_cons_of_pos _ (by simpa using hq)]
      · rw [List.map_cons, if_neg hp, List.find?_cons_of_neg _ (by simpa using hq),
          List.find?_cons_of_neg _ (by simpa using hq)]
        exact ih

theorem find?_dset_ne (m : List (String × α)) (k k' : String) (v : α) (h : k' ≠ k) :
    (dset m k v).find? (fun p => p.1 = k') = m.find? (fun p => p.1 = k') := by
  unfold dset
  split
  · exact find?_map_overwrite m k k' v h
  · rw [List.find?_append]
    have hone : List.find? (fun p => decide (p.1 = k')) [(k, v)] = none := by
      have hk' : ¬ ((k, v) : String × α).1 = k' := fun hh => h hh.symm
      simp [hk']
    rw [hone]
    cases m.find? (fun p => decide (p.1 = k')) <;> rfl

theorem find?_ddel_self (m : List (String × α)) (k : String) :
    (ddel m k).find? (fun p => p.1 = k) = none := by
  unfold ddel
  rw [List.find?_eq_none]
  intro x hx
  have := (List.mem_filter.mp hx).2
  simp only [Bool.not_eq_true', decide_eq_false_iff_not] at this
  simpa using this

theorem dget_dset_self (m : List (String × α)) (k : String) (v d : α) :
    dget (dset m k v) k d = v := by
  unfold dget; rw [find?_dset_self]

theorem dget_dset_ne (m : List (String × α)) (k k' : String) (v d : α) (h : k' ≠ k) :
    dget (dset m k v) k' d = dget m k' d := by
  unfold dget; rw [find?_dset_ne m k k' v h]

theorem dlookup_dset_self (m : List (String × α)) (k : String) (v : α) :
    dlookup (dset m k v) k = some v := by
  unfold dlookup; rw [find?_dset_self]; rfl

theorem dlookup_dset_ne (m : List (String × α)) (k k' : String) (v : α) (h : k' ≠ k) :
    dlookup (dset m k v) k' = dlookup m k' := by
  unfold dlookup; rw [find?_dset_ne m k k' v h]

theorem dlookup_ddel_self (m : List (String × α)) (k : String) :
    dlookup (ddel m k) k = none := by
  unfold dlookup; rw [find?_ddel_self]; rfl

/-! ### Quota tracker: `src/rate_limiter.py`, class `RateLimiter` -/

/-- One row of `RateLimiter.default_limits`. -/
structure Limits where
  per_minute : Nat
  per_hour : Nat
  per_day : Nat
deriving DecidableEq

/-- `self.default_limits.get(action, {'per_minute': 5, 'per_hour': 30, 'per_day': 100})`. -/
def default_limits (action : String) : Limits :=
  if action = "create_email" then ⟨2, 10, 50⟩
  else if action = "check_inbox" then ⟨5, 30, 100⟩
  else if action = "send_message" then ⟨10, 60, 200⟩
  else if action = "pirjada_action" then ⟨1, 5, 20⟩
  else if action = "admin_action" then ⟨30, 100, 500⟩
  else ⟨5, 30, 100⟩

/-- The mutable state of a `RateLimiter`: the two `defaultdict(list)` timestamp maps. -/
structure RateLimiter where
  user_limits : List (String × List ℤ)
  ip_limits : List (String × List ℤ)
deriving DecidableEq

/-- `RateLimiter.__init__`: both maps empty. -/
def RateLimiter.empty : RateLimiter := ⟨[], []⟩

/-- The f-string key `f"{user_id}_{action}"`. -/
def userKey (user_id : ℤ) (action : String) : String :=
  toString user_id ++ "_" ++ action

/-- `RateLimiter.check_limit(user_id, action, ip_address)` at clock value `now`
(`time.time()`).  Returns the allow/deny decision and the post-state (the method
compacts the stored lists in place while checking; it records nothing). -/
def RateLimiter.check_limit (rl : RateLimiter) (user_id : ℤ) (action : String)
    (ip_address : Option String) (now : ℤ) : Bool × RateLimiter :=
  let limits := default_limits action
  let user_key := userKey user_id action
  -- user_times = [t for t in user_times if current_time - t < 86400]
  let user_times := (dget rl.user_limits user_key []).filter (fun t => now - t < 86400 * sec)
  let rl1 : RateLimiter := { rl with user_limits := dset rl.user_limits user_key user_times }
  let minute_ago := now - 60 * sec
  let minute_count := (user_times.filter (fun t => minute_ago < t)).length
  if limits.per_minute ≤ minute_count then (false, rl1)
  else
    let hour_ago := now - 3600 * sec
    let hour_count := (user_times.filter (fun t => hour_ago < t)).length
    if limits.per_hour ≤ hour_count then (false, rl1)
    else if limits.per_day ≤ user_times.length then (false, rl1)
    else
      match ip_address with
      | none => (true, rl1)
      | some addr =>
        -- `if ip_address:` — Python treats the empty string as absent
        if addr = "" then (true, rl1)
        else
          let ip_key := addr ++ "_" ++ action
          let ip_times := (dget rl1.ip_limits ip_key []).filter (fun t => now - t < 86400 * sec)
          let rl2 : RateLimiter := { rl1 with ip_limits := dset rl1.ip_limits ip_key ip_times }
          if max 1 (limits.per_minute / 2) ≤ (ip_times.filter (fun t => minute_ago < t)).length
            then (false, rl2)
          else if max 3 (limits.per_hour / 2) ≤ (ip_times.filter (fun t => hour_ago < t)).length
            then (false, rl2)
          else if max 10 (limits.per_day / 2) ≤ ip_times.length then (false, rl2)
          else (true, rl2)

/-- `RateLimiter.update_limit(user_id, action, ip_address)` at clock value `now`:
append the current time to the per-key list, keeping only the last 100 entries
(50 for IP keys). -/
def RateLimiter.update_limit (rl : RateLimiter) (user_id : ℤ) (action : String)
    (ip_address : Option String) (now : ℤ) : RateLimiter :=
  let user_key := userKey user_id action
  let lst0 := dget rl.user_limits user_key [] ++ [now]
  let lst := if 100 < lst0.length then lst0.drop (lst0.length - 100) else lst0
  let rl1 : RateLimiter := { rl with user_limits := dset rl.user_limits user_key lst }
  match ip_address with
  | none => rl1
  | some addr =>
    if addr = "" then rl1
    else
      let ip_key := addr ++ "_" ++ action
      let ilst0 := dget rl1.ip_limits ip_key [] ++ [now]
      let ilst := if 50 < ilst0.length then ilst0.drop (ilst0.length - 50) else ilst0
      { rl1 with ip_limits := dset rl1.ip_limits ip_key ilst }

/-- The caller-side admission sequence (see `src/src/bot_handlers.py`,
`new_email_command`): `check_limit`, and on success perform the action and then
`update_limit`.  This is the code's realization of the spec's `CheckAndConsume`. -/
def consume (rl : RateLimiter) (user_id : ℤ) (action : String) (now : ℤ) :
    Bool × RateLimiter :=
  let r := rl.check_limit user_id action none now
  if r.1 then (true, r.2.update_limit user_id action none now) else r

/-- Run a sequence of `consume` calls at the given times; also return the list of
admitted (successful) call times, in order. -/
def runConsumes (rl : RateLimiter) (user_id : ℤ) (action : String) :
    List ℤ → RateLimiter × List ℤ
  | [] => (rl, [])
  | t :: ts =>
    let r := consume rl user_id action t
    let rest := runConsumes r.2 user_id action ts
    (rest.1, (if r.1 then [t] else []) ++ rest.2)

/-- Restricting an age-filtered list by a shorter window: of the timestamps
younger than a day, exactly those younger than `w ≤ 86400` seconds survive the
in-window test `now - w < t` used by `check_limit`. -/
theorem window_filter (L : List ℤ) (now w : ℤ) (hw : w ≤ 86400 * sec) :
    (L.filter (fun t => now - t < 86400 * sec)).filter (fun t => now - w < t)
      = L.filter (fun t => now - t < w) := by
  rw [List.filter_filter]
  apply List.filter_congr
  intro t _
  by_cases h : now - t < w
  · have h1 : now - w < t := by omega
    have h2 : now - t < 86400 * sec := by omega
    simp [h, h1, h2]
  · have h1 : ¬ now - w < t := by omega
    simp [h, h1]

/-- A day-window filter taken at a later clock value absorbs one taken earlier. -/
theorem filter_day_mono (A : List ℤ) (T t : ℤ) (h : T ≤ t) :
    (A.filter (fun s => T - s < 86400 * sec)).filter (fun s => t - s < 86400 * sec)
      = A.filter (fun s => t - s < 86400 * sec) := by
  rw [List.filter_filter]
  apply List.filter_congr
  intro s _
  by_cases hh : t - s < 86400 * sec
  · have h1 : T - s < 86400 * sec := by omega
    simp [hh, h1]
  · simp [hh]

/-- With no IP address supplied, `check_limit` always leaves the state with the
user's key compacted to the trailing day — nothing else changes and nothing is
recorded. -/
theorem check_limit_state_none (rl : RateLimiter) (u : ℤ) (a : String) (now : ℤ) :
    (rl.check_limit u a none now).2
      = { rl with user_limits := dset rl.user_limits (userKey u a) ((dget rl.user_limits (userKey u a) []).filter (fun t => now - t < 86400 * sec)) } := by
  unfold RateLimiter.check_limit
  split
  · dsimp only
    split
    · rfl
    · split
      · rfl
      · split <;> rfl
  · rename_i heq
    exact Option.noConfusion heq

/-- With no IP address supplied, `update_limit` appends `now` to the user's key
and keeps the last 100 entries. -/
theorem update_limit_state_none (rl : RateLimiter) (u : ℤ) (a : String) (now : ℤ) :
    rl.update_limit u a none now
      = { rl with user_limits := dset rl.user_limits (userKey u a) (let lst0 := dget rl.user_limits (userKey u a) [] ++ [now]; if 100 < lst0.length then lst0.drop (lst0.length - 100) else lst0) } := rfl

/-- C2: with no IP address supplied, `check_limit` allows an action exactly when
the stored timestamps inside each of the three trailing windows are strictly
below that window's ceiling. -/
theorem C2_allowed_iff_all_windows_below_ceiling (rl : RateLimiter) (u : ℤ) (a : String) (now : ℤ) :
    (rl.check_limit u a none now).1 = true ↔
      (((dget rl.user_limits (userKey u a) []).filter (fun t => now - t < 60 * sec)).length
          < (default_limits a).per_minute
        ∧ ((dget rl.user_limits (userKey u a) []).filter (fun t => now - t < 3600 * sec)).length
          < (default_limits a).per_hour
        ∧ ((dget rl.user_limits (userKey u a) []).filter (fun t => now - t < 86400 * sec)).length
          < (default_limits a).per_day) := by
  unfold RateLimiter.check_limit
  dsimp only
  rw [window_filter _ now (60 * sec) (by norm_num [sec]),
    window_filter _ now (3600 * sec) (by norm_num [sec])]
  split_ifs with h1 h2 h3 <;> simp <;> omega

/-- C1 counterexample: on a fresh tracker, `check_limit` answers `allowed = true`
yet records no event — after the call the stored timestamp list for the key is
still empty, so the admission count did not increase by one. -/
theorem C1_counterexample :
    (RateLimiter.empty.check_limit 1 "create_email" none 0).1 = true ∧
    dget (RateLimiter.empty.check_limit 1 "create_email" none 0).2.user_limits
        (userKey 1 "create_email") [] = [] := by
  constructor <;> decide

/-- C1 (amended): `check_limit` records nothing — it only compacts the stored
list to the trailing day — and the admission timestamp is appended by the
separate `update_limit` call; hence the caller-side sequence `consume`
(check, then record on success) grows the recorded list by exactly the new
timestamp, provided fewer than 100 entries are retained. -/
theorem C1_amended_check_records_nothing_update_records (rl : RateLimiter)
    (u : ℤ) (a : String) (now : ℤ) :
    dget (rl.check_limit u a none now).2.user_limits (userKey u a) []
        = (dget rl.user_limits (userKey u a) []).filter (fun t => now - t < 86400 * sec)
      ∧ ((consume rl u a now).1 = true →
        ((dget rl.user_limits (userKey u a) []).filter (fun t => now - t < 86400 * sec)).length < 100 →
        dget (consume rl u a now).2.user_limits (userKey u a) []
          = (dget rl.user_limits (userKey u a) []).filter (fun t => now - t < 86400 * sec) ++ [now]) := by
  have hchk : dget (rl.check_limit u a none now).2.user_limits (userKey u a) []
      = (dget rl.user_limits (userKey u a) []).filter (fun t => now - t < 86400 * sec) := by
    rw [check_limit_state_none]
    exact dget_dset_self _ _ _ _
  refine ⟨hchk, fun hok hlen => ?_⟩
  rcases hc : rl.check_limit u a none now with ⟨ok, rlc⟩
  rw [hc] at hchk
  have hok' : ok = true := by
    have : (consume rl u a now).1 = ok := by simp [consume, hc]; split <;> simp_all
    rw [this] at hok; exact hok
  subst hok'
  have hcons : (consume rl u a now).2 = rlc.update_limit u a none now := by
    simp [consume, hc]
  rw [hcons, update_limit_state_none]
  dsimp only
  rw [dget_dset_self, hchk]
  rw [if_neg (by simp; omega)]

/-- C1 amended, witnessed at a concrete input: one successful consume on a fresh
tracker records exactly the one call timestamp. -/
theorem C1_amended_witness :
    dget (consume RateLimiter.empty 1 "create_email" 0).2.user_limits
        (userKey 1 "create_email") [] = [(0 : ℤ)] := by
  have h := (C1_amended_check_records_nothing_update_records RateLimiter.empty
    1 "create_email" 0).2 (by decide) (by decide)
  simpa using h

/-- Invariant of a `consume` run: if the stored list for the key is exactly the
previously admitted times restricted to the trailing day of clock value `T`, and
at most 100 events are ever admitted in total, then after any nondecreasing
sequence of further calls the stored list is exactly the admitted times
restricted to the trailing day of the last call. -/
theorem runConsumes_stored (u : ℤ) (a : String) :
    ∀ (ts : List ℤ) (rl : RateLimiter) (A : List ℤ) (T : ℤ),
      List.Pairwise (· ≤ ·) (T :: ts) →
      dget rl.user_limits (userKey u a) [] = A.filter (fun s => T - s < 86400 * sec) →
      A.length + (runConsumes rl u a ts).2.length ≤ 100 →
      dget (runConsumes rl u a ts).1.user_limits (userKey u a) []
        = (A ++ (runConsumes rl u a ts).2).filter (fun s => ts.getLastD T - s < 86400 * sec)
  | [], rl, A, T, _, hstored, _ => by
      simpa [runConsumes] using hstored
  | t :: ts, rl, A, T, hpair, hstored, hbound => by
      rw [List.pairwise_cons] at hpair
      have hTt : T ≤ t := hpair.1 t (by simp)
      rcases hc : rl.check_limit u a none t with ⟨ok, rlc⟩
      have hrlc : dget rlc.user_limits (userKey u a) []
          = A.filter (fun s => t - s < 86400 * sec) := by
        have h1 := check_limit_state_none rl u a t
        rw [hc] at h1
        rw [show rlc = (ok, rlc).2 from rfl, h1]
        dsimp only
        rw [dget_dset_self, hstored, filter_day_mono A T t hTt]
      cases ok with
      | false =>
        have hcons : consume rl u a t = (false, rlc) := by
          simp [consume, hc]
        have hrun : runConsumes rl u a (t :: ts)
            = ((runConsumes rlc u a ts).1, [] ++ (runConsumes rlc u a ts).2) := by
          simp [runConsumes, hcons]
        have hbound' : A.length + (runConsumes rlc u a ts).2.length ≤ 100 := by
          rw [hrun] at hbound; simpa using hbound
        have ih := runConsumes_stored u a ts rlc A t hpair.2 hrlc hbound'
        rw [hrun, List.getLastD_cons]
        simpa using ih
      | true =>
        have hcons : consume rl u a t = (true, rlc.update_limit u a none t) := by
          simp [consume, hc]
        have hrun : runConsumes rl u a (t :: ts)
            = ((runConsumes (rlc.update_limit u a none t) u a ts).1,
               [t] ++ (runConsumes (rlc.update_limit u a none t) u a ts).2) := by
          simp [runConsumes, hcons]
        have hA1 : A.length + 1 + (runConsumes (rlc.update_limit u a none t) u a ts).2.length ≤ 100 := by
          rw [hrun] at hbound; simpa [Nat.add_comm, Nat.add_assoc, Nat.add_left_comm] using hbound
        have hupd : dget (rlc.update_limit u a none t).user_limits (userKey u a) []
            = (A ++ [t]).filter (fun s => t - s < 86400 * sec) := by
          rw [update_limit_state_none]
          dsimp only
          rw [dget_dset_self, hrlc]
          have hflen : ((A.filter (fun s => t - s < 86400 * sec)) ++ [t]).length ≤ 100 := by
            have := List.length_filter_le (fun s => decide (t - s < 86400 * sec)) A
            simp only [List.length_append, List.length_singleton]
            omega
          rw [if_neg (by omega)]
          rw [List.filter_append]
          congr 1
          simp [sec]
        have ih := runConsumes_stored u a ts (rlc.update_limit u a none t) (A ++ [t]) t
          hpair.2 hupd (by simpa using hA1)
        rw [hrun, List.getLastD_cons]
        dsimp only
        rw [show A ++ ([t] ++ (runConsumes (rlc.update_limit u a none t) u a ts).2)
            = (A ++ [t]) ++ (runConsumes (rlc.update_limit u a none t) u a ts).2 from
          (List.append_assoc _ _ _).symm]
        exact ih

/-- C7 (amended): starting from a fresh tracker, for any nondecreasing sequence
of `consume` calls in which at most 100 calls are admitted, the stored timestamp
list for the key is exactly the list of admitted call times restricted to the
trailing day of the last call — so the stored count equals the count of
successful consumes within the trailing day, and no entry older than one day is
ever counted.  (With more than 100 admissions the `update_limit` 100-entry cap
drops the oldest admissions; see the counterexample.) -/
theorem C7_amended_stored_equals_admitted_within_day (u : ℤ) (a : String)
    (t : ℤ) (ts : List ℤ)
    (hmono : List.Pairwise (· ≤ ·) (t :: ts))
    (hcap : (runConsumes RateLimiter.empty u a (t :: ts)).2.length ≤ 100) :
    dget (runConsumes RateLimiter.empty u a (t :: ts)).1.user_limits (userKey u a) []
      = (runConsumes RateLimiter.empty u a (t :: ts)).2.filter
          (fun s => ts.getLastD t - s < 86400 * sec) := by
  have hpair : List.Pairwise (· ≤ ·) (t :: t :: ts) := by
    rw [List.pairwise_cons] at hmono ⊢
    refine ⟨fun x hx => ?_, List.pairwise_cons.mpr hmono⟩
    rcases List.mem_cons.mp hx with hx | hx
    · exact le_of_eq hx.symm
    · exact hmono.1 x hx
  have h := runConsumes_stored u a (t :: ts) RateLimiter.empty [] t hpair (by rfl)
    (by simpa using hcap)
  rw [List.getLastD_cons] at h
  simpa using h

/-- C7 amended, witnessed: two admitted calls on a fresh tracker leave exactly
those two timestamps stored. -/
theorem C7_amended_witness :
    dget (runConsumes RateLimiter.empty 1 "create_email" [0, 60 * sec]).1.user_limits
        (userKey 1 "create_email") []
      = (runConsumes RateLimiter.empty 1 "create_email" [0, 60 * sec]).2.filter
          (fun s => [60 * sec].getLastD 0 - s < 86400 * sec) :=
  C7_amended_stored_equals_admitted_within_day 1 "create_email" 0 [60 * sec]
    (by decide) (by decide)

/-- 101 call times for the action `"admin_action"` (ceilings 30/minute,
100/hour, 500/day), all admitted: 30 at `t = 0`, 30 at `t = 60 s`, 30 at
`t = 120 s`, 10 at `t = 180 s`, and a last one at `t = 3781 s`. -/
def ts101 : List ℤ :=
  List.replicate 30 0 ++ List.replicate 30 (60 * sec) ++ List.replicate 30 (120 * sec) ++
    List.replicate 10 (180 * sec) ++ [3781 * sec]

set_option maxRecDepth 40000 in
/-- C7 counterexample: running the nondecreasing call sequence `ts101` from a
fresh tracker admits all 101 calls — all within one trailing day of the final
call — yet only 100 timestamps remain stored for the key, because
`update_limit` truncates each per-user list to its last 100 entries.  A
successful admission inside the trailing day is therefore missing from the
stored set, contradicting the claimed invariant. -/
theorem C7_counterexample :
    List.Pairwise (· ≤ ·) ts101 ∧
    ((runConsumes RateLimiter.empty 1 "admin_action" ts101).2.filter
        (fun s => 3781 * sec - s < 86400 * sec)).length = 101 ∧
    ((dget (runConsumes RateLimiter.empty 1 "admin_action" ts101).1.user_limits
        (userKey 1 "admin_action") []).filter
        (fun s => 3781 * sec - s < 86400 * sec)).length = 100 := by
  refine ⟨by decide, by decide, by decide⟩

/-! ### Resource store: `src/tempro_db.py`, class `TemproDatabase`

The JSON records are embedded as structures.  Fields the embedded methods never
read or write (`username`, `join_date`, `version`, backup settings, …) are
omitted.  `datetime` instants are microsecond integers; `created_at` is kept as
an instant and compared numerically — the source stores ISO-8601 strings whose
lexicographic order coincides with chronological order. -/

/-- One entry of `data["emails"]`. -/
structure EmailRec where
  email_id : String
  user_id : ℤ
  email : String
  created_at : ℤ
  expires_at : ℤ
  is_active : Bool
  message_count : ℤ
  last_checked : Option ℤ
  domain : String
deriving DecidableEq

/-- One entry of `data["users"]` (only the fields the embedded methods touch). -/
structure UserRec where
  total_emails : ℤ
  last_active : ℤ
deriving DecidableEq

/-- `data["statistics"]`. -/
structure Statistics where
  total_users : ℤ
  total_emails : ℤ
  total_messages : ℤ
  active_emails : ℤ
deriving DecidableEq

/-- `data["settings"]` (the two fields the embedded methods read). -/
structure Settings where
  max_emails_per_user : Nat
  email_expiry_hours : ℤ
deriving DecidableEq

/-- The persisted database value (the JSON file contents). -/
structure TemproData where
  users : List (String × UserRec)
  emails : List (String × EmailRec)
  statistics : Statistics
  settings : Settings
deriving DecidableEq

/-- `email.split("@")`: split a character list at every occurrence of `c`
(Python `str.split` semantics). -/
def splitChar (c : Char) : List Char → List (List Char)
  | [] => [[]]
  | x :: xs =>
    if x = c then [] :: splitChar c xs
    else
      match splitChar c xs with
      | h :: t => (x :: h) :: t
      | [] => [[x]]

/-- `int(datetime.now().timestamp())`: the whole-second part of a microsecond
instant, truncated toward zero exactly like Python's `int()`. -/
def wholeSeconds (t : ℤ) : ℤ := t.tdiv sec

/-- The email id `f"{user_id}_{int(datetime.now().timestamp())}"`. -/
def emailIdKey (user_id : ℤ) (n : ℤ) : String :=
  toString user_id ++ "_" ++ toString n

/-- `created_at` descending — the sort key of `get_user_emails`
(`sorted(..., key=lambda x: x["created_at"], reverse=True)`). -/
def createdDesc (a b : EmailRec) : Prop := b.created_at ≤ a.created_at

instance (a b : EmailRec) : Decidable (createdDesc a b) :=
  inferInstanceAs (Decidable (b.created_at ≤ a.created_at))

instance : IsTotal EmailRec createdDesc :=
  ⟨fun a b => le_total b.created_at a.created_at⟩

instance : IsTrans EmailRec createdDesc :=
  ⟨fun _ _ _ hab hbc => le_trans hbc hab⟩

/-- The body of the expiry test inside `get_user_emails`: an active record whose
`expires_at` lies strictly in the past is flagged inactive in the returned copy. -/
def markExpired (now : ℤ) (e : EmailRec) : EmailRec :=
  if e.is_active ∧ e.expires_at < now then { e with is_active := false } else e

/-- The loop body of `get_user_emails`: skip other users' records, skip
inactive records when `active_only`, and append the (possibly expiry-marked)
record otherwise. -/
def collectStep (user_id : ℤ) (active_only : Bool) (now : ℤ)
    (acc : List EmailRec) (p : String × EmailRec) : List EmailRec :=
  if p.2.user_id = user_id then
    if active_only ∧ p.2.is_active = false then acc
    else acc ++ [markExpired now p.2]
  else acc

/-- `TemproDatabase.get_user_emails(user_id, active_only)` at clock value `now`.
The in-place deactivation of freshly-expired records is never written back: the
save at the end runs under `any(not e["is_active"] for e in emails if
e["is_active"])`, which is always false, so the call is a pure query.  Python's
stable `sorted(..., reverse=True)` is modelled by a stable insertion sort. -/
def TemproDatabase.get_user_emails (d : TemproData) (user_id : ℤ)
    (active_only : Bool) (now : ℤ) : List EmailRec :=
  List.insertionSort createdDesc (d.emails.foldl (collectStep user_id active_only now) [])

/-- Return value of `TemproDatabase.add_email` (the `success`/`error` dict). -/
inductive AddEmailResult where
  | user_not_found
  | limit_reached (max_emails : Nat) (current_emails : Nat)
  | ok (email_id : String)
deriving DecidableEq

/-- `TemproDatabase.add_email(user_id, email)` at clock value `now`. -/
def TemproDatabase.add_email (d : TemproData) (user_id : ℤ) (email : String)
    (now : ℤ) : TemproData × AddEmailResult :=
  match dlookup d.users (toString user_id) with
  | none => (d, .user_not_found)
  | some u =>
    let user_emails := TemproDatabase.get_user_emails d user_id true now
    let max_emails := d.settings.max_emails_per_user
    if max_emails ≤ user_emails.length then
      (d, .limit_reached max_emails user_emails.length)
    else
      let email_id := emailIdKey user_id (wholeSeconds now)
      let expires_at := now + d.settings.email_expiry_hours * (3600 * sec)
      let entry : EmailRec :=
        { email_id := email_id, user_id := user_id, email := email,
          created_at := now, expires_at := expires_at, is_active := true,
          message_count := 0, last_checked := none,
          domain := if email.data.contains '@' then ((splitChar '@' email.data).getLastD []).asString else "unknown" }
      let users' := dset d.users (toString user_id)
        { u with total_emails := u.total_emails + 1, last_active := now }
      let stats' := { d.statistics with total_emails := d.statistics.total_emails + 1, active_emails := d.statistics.active_emails + 1 }
      ({ d with emails := dset d.emails email_id entry, users := users', statistics := stats' },
       .ok email_id)

/-- `TemproDatabase.delete_email(email_id)`: physical removal; returns `False`
when the id is absent. -/
def TemproDatabase.delete_email (d : TemproData) (email_id : String) :
    TemproData × Bool :=
  match dlookup d.emails email_id with
  | some email_data =>
    let stats1 := if email_data.is_active
      then { d.statistics with active_emails := d.statistics.active_emails - 1 }
      else d.statistics
    let users1 := match dlookup d.users (toString email_data.user_id) with
      | some u => dset d.users (toString email_data.user_id)
          { u with total_emails := max 0 (u.total_emails - 1) }
      | none => d.users
    ({ d with emails := ddel d.emails email_id, users := users1, statistics := stats1 }, true)
  | none => (d, false)

/-- The per-record pass of `cleanup_expired_emails`: deactivate each active
record whose `expires_at` lies strictly before `now` (`datetime.now() >
expires_at`), counting the records changed. -/
def cleanupPass (now : ℤ) : List (String × EmailRec) → List (String × EmailRec) × Nat
  | [] => ([], 0)
  | p :: rest =>
    let r := cleanupPass now rest
    if p.2.is_active ∧ p.2.expires_at < now then
      ((p.1, { p.2 with is_active := false }) :: r.1, r.2 + 1)
    else (p :: r.1, r.2)

/-- The statistics dict returned by `cleanup_expired_emails`. -/
structure CleanupStats where
  expired : Nat
  deactivated : Nat
  total_checked : Nat
deriving DecidableEq

/-- `TemproDatabase.cleanup_expired_emails()` at clock value `now`. -/
def TemproDatabase.cleanup_expired_emails (d : TemproData) (now : ℤ) :
    TemproData × CleanupStats :=
  let r := cleanupPass now d.emails
  ({ d with emails := r.1,
            statistics := { d.statistics with active_emails := d.statistics.active_emails - r.2 } },
   { expired := r.2, deactivated := r.2, total_checked := d.emails.length })

/-! The second sweep variant, `src/main.py`, class `Database`,
`cleanup_expired` — it uses `datetime.now() >= expires_at` (inclusive) and
touches nothing but `is_active`. -/

namespace MainDb

/-- One entry of `data["emails"]` in `src/main.py` (only fields the sweep reads). -/
structure MEmailRec where
  user_id : ℤ
  created_at : ℤ
  expires_at : ℤ
  is_active : Bool
deriving DecidableEq

/-- `Database.cleanup_expired` per-record pass: deactivate active records with
`expires_at ≤ now`, counting them. -/
def cleanupPassM (now : ℤ) : List (String × MEmailRec) → List (String × MEmailRec) × Nat
  | [] => ([], 0)
  | p :: rest =>
    let r := cleanupPassM now rest
    if p.2.is_active ∧ p.2.expires_at ≤ now then
      ((p.1, { p.2 with is_active := false }) :: r.1, r.2 + 1)
    else (p :: r.1, r.2)

/-- `Database.cleanup_expired()` at clock value `now`, acting on the email
table (the method reads and writes nothing else). -/
def cleanup_expired (emails : List (String × MEmailRec)) (now : ℤ) :
    List (String × MEmailRec) × Nat :=
  cleanupPassM now emails

end MainDb

/-- Characterization of `cleanupPass`: it maps the expiry-flip over the table
and returns the number of records it changed. -/
theorem cleanupPass_spec (now : ℤ) (l : List (String × EmailRec)) :
    cleanupPass now l
      = (l.map (fun p => if p.2.is_active ∧ p.2.expires_at < now then (p.1, { p.2 with is_active := false }) else p),
         (l.filter (fun p => decide (p.2.is_active = true ∧ p.2.expires_at < now))).length) := by
  induction l with
  | nil => rfl
  | cons p rest ih =>
    simp only [cleanupPass, ih]
    by_cases h : p.2.is_active = true ∧ p.2.expires_at < now
    · simp [h]
    · simp [h]

/-- Characterization of the `main.py` sweep pass (inclusive boundary). -/
theorem cleanupPassM_spec (now : ℤ) (l : List (String × MainDb.MEmailRec)) :
    MainDb.cleanupPassM now l
      = (l.map (fun p => if p.2.is_active ∧ p.2.expires_at ≤ now then (p.1, { p.2 with is_active := false }) else p),
         (l.filter (fun p => decide (p.2.is_active = true ∧ p.2.expires_at ≤ now))).length) := by
  induction l with
  | nil => rfl
  | cons p rest ih =>
    simp only [MainDb.cleanupPassM, ih]
    by_cases h : p.2.is_active = true ∧ p.2.expires_at ≤ now
    · simp [h]
    · simp [h]

/-- One concrete email record: active, expiring exactly at `100 s`. -/
def e3 : EmailRec :=
  { email_id := "1_100", user_id := 1, email := "a@1secmail.com", created_at := 0,
    expires_at := 100 * sec, is_active := true, message_count := 0,
    last_checked := none, domain := "1secmail.com" }

/-- One concrete store holding `e3` for user 1. -/
def d3 : TemproData :=
  { users := [("1", ⟨1, 0⟩)], emails := [("1_100", e3)],
    statistics := ⟨1, 1, 0, 1⟩, settings := ⟨5, 24⟩ }

/-- C3 counterexample: sweeping at exactly the record's `expires_at` leaves it
active and reports zero changes — `cleanup_expired_emails` deactivates only
records with `expires_at` strictly in the past, not `expires_at ≤ now`. -/
theorem C3_counterexample :
    e3.is_active = true ∧ e3.expires_at = 100 * sec ∧
    (TemproDatabase.cleanup_expired_emails d3 (100 * sec)).2.expired = 0 ∧
    dlookup (TemproDatabase.cleanup_expired_emails d3 (100 * sec)).1.emails "1_100" = some e3 := by
  refine ⟨by decide, by decide, by decide, by decide⟩

/-- C3 (amended): `TemproDatabase.cleanup_expired_emails` deactivates exactly
the active records with `expires_at < now` (strict) and returns how many it
changed, while `main.py`'s `Database.cleanup_expired` deactivates exactly the
active records with `expires_at ≤ now` (inclusive) and returns how many it
changed. -/
theorem C3_amended_sweep_boundaries (d : TemproData) (now : ℤ)
    (m : List (String × MainDb.MEmailRec)) :
    ((TemproDatabase.cleanup_expired_emails d now).1.emails
        = d.emails.map (fun p => if p.2.is_active ∧ p.2.expires_at < now then (p.1, { p.2 with is_active := false }) else p)
      ∧ (TemproDatabase.cleanup_expired_emails d now).2.expired
        = (d.emails.filter (fun p => decide (p.2.is_active = true ∧ p.2.expires_at < now))).length)
    ∧ ((MainDb.cleanup_expired m now).1
        = m.map (fun p => if p.2.is_active ∧ p.2.expires_at ≤ now then (p.1, { p.2 with is_active := false }) else p)
      ∧ (MainDb.cleanup_expired m now).2
        = (m.filter (fun p => decide (p.2.is_active = true ∧ p.2.expires_at ≤ now))).length) := by
  refine ⟨⟨?_, ?_⟩, ?_, ?_⟩
  · unfold TemproDatabase.cleanup_expired_emails
    rw [cleanupPass_spec]
  · unfold TemproDatabase.cleanup_expired_emails
    rw [cleanupPass_spec]
  · unfold MainDb.cleanup_expired
    rw [cleanupPassM_spec]
  · unfold MainDb.cleanup_expired
    rw [cleanupPassM_spec]

/-- `delete_email` on an absent id is a no-op returning `False`. -/
theorem delete_email_not_found (d : TemproData) (email_id : String)
    (h : dlookup d.emails email_id = none) :
    TemproDatabase.delete_email d email_id = (d, false) := by
  unfold TemproDatabase.delete_email
  rw [h]

/-- After a successful `delete_email` the id's entry is removed from the table. -/
theorem delete_email_found_emails (d : TemproData) (email_id : String) (e : EmailRec)
    (h : dlookup d.emails email_id = some e) :
    (TemproDatabase.delete_email d email_id).1.emails = ddel d.emails email_id := by
  unfold TemproDatabase.delete_email
  rw [h]

/-- C5 (amended): deleting the same id a second time is a no-op on the store —
the state equals the one after the first call — but the second call returns
`False` (not-found), not a success. -/
theorem C5_amended_second_delete_noop_but_false (d : TemproData) (email_id : String) :
    TemproDatabase.delete_email (TemproDatabase.delete_email d email_id).1 email_id
      = ((TemproDatabase.delete_email d email_id).1, false) := by
  rcases h : dlookup d.emails email_id with _ | e
  · rw [delete_email_not_found d email_id h]
    simpa using delete_email_not_found d email_id h
  · apply delete_email_not_found
    rw [delete_email_found_emails d email_id e h]
    exact dlookup_ddel_self _ _

/-- C5 counterexample: on a store holding the id, the first delete succeeds and
the second returns `False` — the repeated call does not report success, though
it leaves the store unchanged. -/
theorem C5_counterexample :
    (TemproDatabase.delete_email d3 "1_100").2 = true ∧
    (TemproDatabase.delete_email (TemproDatabase.delete_email d3 "1_100").1 "1_100").2 = false ∧
    (TemproDatabase.delete_email (TemproDatabase.delete_email d3 "1_100").1 "1_100").1
      = (TemproDatabase.delete_email d3 "1_100").1 := by
  refine ⟨by decide, by decide, by decide⟩

/-- Characterization of the `get_user_emails` loop with `active_only = True`:
it collects exactly the user's records that are flagged active in the store —
whether or not they have already expired — each passed through the expiry
marker. -/
theorem collect_spec (u now : ℤ) (l : List (String × EmailRec)) :
    ∀ acc, l.foldl (collectStep u true now) acc
      = acc ++ ((l.map Prod.snd).filter
          (fun e => decide (e.user_id = u ∧ e.is_active = true))).map (markExpired now) := by
  induction l with
  | nil => simp
  | cons p rest ih =>
    intro acc
    rw [List.foldl_cons, ih]
    unfold collectStep
    by_cases h1 : p.2.user_id = u
    · by_cases h2 : p.2.is_active = false
      · have : ¬ (p.2.user_id = u ∧ p.2.is_active = true) := by simp [h2]
        simp [h1, h2, this]
      · have hact : p.2.is_active = true := by
          cases hb : p.2.is_active
          · exact absurd hb h2
          · rfl
        simp [h1, h2, hact]
    · have : ¬ (p.2.user_id = u ∧ p.2.is_active = true) := by simp [h1]
      simp [h1, this]

/-- C6 (amended): `get_user_emails(user, active_only=True)` returns, up to
order, the user's records that are flagged active in the store — including
records whose `expires_at` is already in the past, which are returned with
`is_active` flipped to `False` in the copy — and the result is sorted by
`created_at` descending. -/
theorem C6_amended_active_flagged_records_sorted (d : TemproData) (u now : ℤ) :
    (TemproDatabase.get_user_emails d u true now).Perm
        (((d.emails.map Prod.snd).filter
          (fun e => decide (e.user_id = u ∧ e.is_active = true))).map (markExpired now))
      ∧ List.Sorted createdDesc (TemproDatabase.get_user_emails d u true now) := by
  unfold TemproDatabase.get_user_emails
  rw [collect_spec]
  constructor
  · simpa using List.perm_insertionSort createdDesc _
  · exact List.sorted_insertionSort createdDesc _

/-- C6 counterexample: at a call time past the record's expiry, the expired
record still appears in the returned list (flagged inactive in the copy),
though the claim requires records with `expires_at` in the past to be absent. -/
theorem C6_counterexample :
    TemproDatabase.get_user_emails d3 1 true (200 * sec) = [{ e3 with is_active := false }] ∧
    e3.expires_at < 200 * sec := by
  refine ⟨by decide, by decide⟩

/-! ### Decimal string representations

`add_email` derives the email id from `f"{user_id}_{int(...)}"`.  To settle the
uniqueness claim we prove that `toString` on integers is injective and produces
no underscore, so the two components can be recovered from the key. -/

/-- The decimal digit list of a natural number, most significant digit first
(the reference semantics of `Nat.toDigitsCore` at base 10). -/
def digitsAux (n : Nat) : List Char :=
  if _h : n < 10 then [Nat.digitChar n]
  else digitsAux (n / 10) ++ [Nat.digitChar (n % 10)]
decreasing_by exact Nat.div_lt_self (by omega) (by norm_num)

theorem digitsAux_lt (n : Nat) (h : n < 10) : digitsAux n = [Nat.digitChar n] := by
  rw [digitsAux, dif_pos h]

theorem digitsAux_ge (n : Nat) (h : ¬ n < 10) :
    digitsAux n = digitsAux (n / 10) ++ [Nat.digitChar (n % 10)] := by
  conv_lhs => rw [digitsAux]
  rw [dif_neg h]

theorem toDigitsCore_spec (f : Nat) : ∀ (n : Nat) (ds : List Char), n < f →
    Nat.toDigitsCore 10 f n ds = digitsAux n ++ ds := by
  induction f with
  | zero => intro n ds h; omega
  | succ f ih =>
    intro n ds h
    rw [Nat.toDigitsCore]
    by_cases h10 : n / 10 = 0
    · have hn : n < 10 := by omega
      rw [if_pos h10, digitsAux_lt n hn, Nat.mod_eq_of_lt hn]
      rfl
    · have hge : 10 ≤ n := by omega
      have hlt : n / 10 < f := by omega
      rw [if_neg h10, ih (n / 10) _ hlt, digitsAux_ge n (by omega)]
      simp

theorem repr_eq_digitsAux (n : Nat) : Nat.repr n = (digitsAux n).asString := by
  unfold Nat.repr Nat.toDigits
  rw [toDigitsCore_spec (n + 1) n [] (by omega)]
  simp [List.asString]

theorem digitsAux_ne_nil (n : Nat) : digitsAux n ≠ [] := by
  by_cases h : n < 10
  · rw [digitsAux_lt n h]; simp
  · rw [digitsAux_ge n h]; simp

theorem digitsAux_digits (n : Nat) : ∀ c ∈ digitsAux n, ∃ k, k < 10 ∧ c = Nat.digitChar k := by
  induction n using Nat.strong_induction_on with
  | _ n ih =>
    by_cases h : n < 10
    · rw [digitsAux_lt n h]
      intro c hc
      simp only [List.mem_singleton] at hc
      exact ⟨n, h, hc⟩
    · rw [digitsAux_ge n h]
      intro c hc
      rcases List.mem_append.mp hc with hc | hc
      · exact ih (n / 10) (Nat.div_lt_self (by omega) (by norm_num)) c hc
      · simp only [List.mem_singleton] at hc
        exact ⟨n % 10, Nat.mod_lt _ (by norm_num), hc⟩

theorem digitChar_inj (a b : Nat) (ha : a < 10) (hb : b < 10)
    (h : Nat.digitChar a = Nat.digitChar b) : a = b := by
  interval_cases a <;> interval_cases b <;> revert h <;> decide

theorem digitsAux_inj : ∀ m n : Nat, digitsAux m = digitsAux n → m = n := by
  intro m
  induction m using Nat.strong_induction_on with
  | _ m ih =>
    intro n h
    by_cases hm : m < 10 <;> by_cases hn : n < 10
    · rw [digitsAux_lt m hm, digitsAux_lt n hn] at h
      simp only [List.cons.injEq, and_true] at h
      exact digitChar_inj m n hm hn h
    · rw [digitsAux_lt m hm, digitsAux_ge n hn] at h
      have hlen := congrArg List.length h
      simp only [List.length_singleton, List.length_append] at hlen
      have hz : (digitsAux (n / 10)).length = 0 := by omega
      exact absurd (List.length_eq_zero.mp hz) (digitsAux_ne_nil (n / 10))
    · rw [digitsAux_ge m hm, digitsAux_lt n hn] at h
      have hlen := congrArg List.length h
      simp only [List.length_singleton, List.length_append] at hlen
      have hz : (digitsAux (m / 10)).length = 0 := by omega
      exact absurd (List.length_eq_zero.mp hz) (digitsAux_ne_nil (m / 10))
    · rw [digitsAux_ge m hm, digitsAux_ge n hn] at h
      obtain ⟨h1, h2⟩ := List.append_inj' h (by simp)
      have hdiv := ih (m / 10) (Nat.div_lt_self (by omega) (by norm_num)) (n / 10) h1
      have hmod : m % 10 = n % 10 := by
        apply digitChar_inj _ _ (Nat.mod_lt _ (by norm_num)) (Nat.mod_lt _ (by norm_num))
        simpa using h2
      omega

theorem nat_repr_inj (m n : Nat) (h : Nat.repr m = Nat.repr n) : m = n := by
  rw [repr_eq_digitsAux, repr_eq_digitsAux] at h
  apply digitsAux_inj
  have := congrArg String.data h
  simpa [List.asString] using this

theorem int_toString_ofNat (m : Nat) : toString (Int.ofNat m) = Nat.repr m := rfl

theorem int_toString_negSucc (m : Nat) :
    toString (Int.negSucc m) = "-" ++ Nat.repr (m + 1) := rfl

theorem mem_digitsAux_ne_dash (n : Nat) (c : Char) (hc : c ∈ digitsAux n) : c ≠ '-' := by
  obtain ⟨k, hk, rfl⟩ := digitsAux_digits n c hc
  interval_cases k <;> decide

theorem mem_digitsAux_ne_underscore (n : Nat) (c : Char) (hc : c ∈ digitsAux n) : c ≠ '_' := by
  obtain ⟨k, hk, rfl⟩ := digitsAux_digits n c hc
  interval_cases k <;> decide

theorem int_toString_inj (i j : ℤ) (h : toString i = toString j) : i = j := by
  cases i with
  | ofNat m =>
    cases j with
    | ofNat n =>
      rw [int_toString_ofNat, int_toString_ofNat] at h
      exact congrArg Int.ofNat (nat_repr_inj m n h)
    | negSucc n =>
      rw [int_toString_ofNat, int_toString_negSucc] at h
      have hd := congrArg String.data h
      rw [repr_eq_digitsAux, repr_eq_digitsAux] at hd
      simp only [String.data_append, List.asString] at hd
      have hmem : '-' ∈ digitsAux m := by
        rw [hd]
        exact List.mem_append_left _ (by decide)
      exact absurd rfl (mem_digitsAux_ne_dash m '-' hmem)
  | negSucc m =>
    cases j with
    | ofNat n =>
      rw [int_toString_negSucc, int_toString_ofNat] at h
      have hd := congrArg String.data h
      rw [repr_eq_digitsAux, repr_eq_digitsAux] at hd
      simp only [String.data_append, List.asString] at hd
      have hmem : '-' ∈ digitsAux n := by
        rw [← hd]
        exact List.mem_append_left _ (by decide)
      exact absurd rfl (mem_digitsAux_ne_dash n '-' hmem)
    | negSucc n =>
      rw [int_toString_negSucc, int_toString_negSucc] at h
      have hd := congrArg String.data h
      rw [repr_eq_digitsAux, repr_eq_digitsAux] at hd
      simp only [String.data_append, List.asString] at hd
      have : digitsAux (m + 1) = digitsAux (n + 1) := by
        have := List.append_inj_right hd (by rfl)
        exact this
      have hmn : m = n := by
        have := digitsAux_inj _ _ this
        omega
      rw [hmn]

theorem int_toString_no_underscore (i : ℤ) : '_' ∉ (toString i).data := by
  cases i with
  | ofNat m =>
    rw [int_toString_ofNat, repr_eq_digitsAux]
    intro hmem
    exact absurd rfl (mem_digitsAux_ne_underscore m '_' (by simpa [List.asString] using hmem))
  | negSucc m =>
    rw [int_toString_negSucc]
    intro hmem
    rw [repr_eq_digitsAux] at hmem
    simp only [String.data_append, List.asString, List.mem_append] at hmem
    rcases hmem with hmem | hmem
    · exact absurd hmem (by decide)
    · exact absurd rfl (mem_digitsAux_ne_underscore (m + 1) '_' hmem)

/-- Splitting a character list at a separator character absent from both
prefixes is unambiguous. -/
theorem split_at_separator (c : Char) :
    ∀ (l1 l2 r1 r2 : List Char), c ∉ l1 → c ∉ l2 →
      l1 ++ c :: r1 = l2 ++ c :: r2 → l1 = l2 ∧ r1 = r2 := by
  intro l1
  induction l1 with
  | nil =>
    intro l2 r1 r2 _ h2 h
    cases l2 with
    | nil => simpa using h
    | cons b l2 =>
      simp only [List.nil_append, List.cons_append, List.cons.injEq] at h
      exact absurd (h.1 ▸ List.mem_cons_self b l2) h2
  | cons a l1 ih =>
    intro l2 r1 r2 h1 h2 h
    cases l2 with
    | nil =>
      simp only [List.nil_append, List.cons_append, List.cons.injEq] at h
      exact absurd (h.1 ▸ List.mem_cons_self a l1) h1
    | cons b l2 =>
      simp only [List.cons_append, List.cons.injEq] at h
      have := ih l2 r1 r2 (fun hm => h1 (List.mem_cons_of_mem a hm))
        (fun hm => h2 (List.mem_cons_of_mem b hm)) h.2
      exact ⟨by rw [h.1, this.1], this.2⟩

/-- The email-id key is injective: owner and whole-second are both recoverable. -/
theorem emailIdKey_inj (u n u' n' : ℤ) (h : emailIdKey u n = emailIdKey u' n') :
    u = u' ∧ n = n' := by
  unfold emailIdKey at h
  have hd := congrArg String.data h
  simp only [String.data_append] at hd
  simp only [List.append_assoc, List.singleton_append] at hd
  obtain ⟨h1, h2⟩ := split_at_separator '_' _ _ _ _
    (int_toString_no_underscore u) (int_toString_no_underscore u') hd
  exact ⟨int_toString_inj u u' (String.ext h1), int_toString_inj n n' (String.ext h2)⟩

/-- Shape of a successful `add_email`: the returned id is the owner/whole-second
key and the only change to the email table is the insertion at that id. -/
theorem add_email_ok (d : TemproData) (u : ℤ) (e : String) (t : ℤ)
    (d' : TemproData) (i : String)
    (h : TemproDatabase.add_email d u e t = (d', .ok i)) :
    i = emailIdKey u (wholeSeconds t) ∧ ∃ r : EmailRec, d'.emails = dset d.emails i r := by
  unfold TemproDatabase.add_email at h
  rcases hu : dlookup d.users (toString u) with _ | usr
  · rw [hu] at h
    simp [Prod.mk.injEq] at h
  · rw [hu] at h
    dsimp only at h
    split at h
    · simp [Prod.mk.injEq] at h
    · simp only [Prod.mk.injEq, AddEmailResult.ok.injEq] at h
      obtain ⟨hd', hid⟩ := h
      subst hid
      exact ⟨rfl, ⟨_, by rw [← hd']⟩⟩

/-- C8 (amended): two successful creations with distinct owners or with
creation instants in distinct whole seconds get distinct ids; the second
creation leaves the first record untouched and both records are present
afterwards.  (Creations by the same owner within the same whole second share
the id and the later one overwrites the earlier — see the counterexample.) -/
theorem C8_amended_distinct_keys_distinct_ids (d : TemproData) (u u' : ℤ)
    (e1 e2 : String) (t1 t2 : ℤ)
    (hdiff : u ≠ u' ∨ wholeSeconds t1 ≠ wholeSeconds t2)
    (d1 d2 : TemproData) (id1 id2 : String)
    (h1 : TemproDatabase.add_email d u e1 t1 = (d1, .ok id1))
    (h2 : TemproDatabase.add_email d1 u' e2 t2 = (d2, .ok id2)) :
    id1 ≠ id2
      ∧ dlookup d2.emails id1 = dlookup d1.emails id1
      ∧ (dlookup d1.emails id1).isSome = true
      ∧ (dlookup d2.emails id2).isSome = true := by
  obtain ⟨hid1, r1, he1⟩ := add_email_ok d u e1 t1 d1 id1 h1
  obtain ⟨hid2, r2, he2⟩ := add_email_ok d1 u' e2 t2 d2 id2 h2
  have hne : id1 ≠ id2 := by
    intro hEq
    rw [hid1, hid2] at hEq
    obtain ⟨hu, hs⟩ := emailIdKey_inj _ _ _ _ hEq
    rcases hdiff with hdiff | hdiff
    · exact hdiff hu
    · exact hdiff hs
  refine ⟨hne, ?_, ?_, ?_⟩
  · rw [he2]
    exact dlookup_dset_ne _ _ _ _ hne
  · rw [he1, dlookup_dset_self]
    rfl
  · rw [he2, dlookup_dset_self]
    rfl

/-- A store with one registered user and no emails. -/
def d8 : TemproData :=
  { users := [("1", ⟨0, 0⟩)], emails := [], statistics := ⟨1, 0, 0, 0⟩, settings := ⟨5, 24⟩ }

/-- `100.2 s`: inside whole second 100. -/
def t8a : ℤ := 100 * sec + 200000

/-- `101.5 s`: inside whole second 101. -/
def t8b : ℤ := 101 * sec + 500000

/-- `100.7 s`: inside whole second 100, like `t8a`, but a distinct instant. -/
def t8c : ℤ := 100 * sec + 700000

/-- The store after creating an email at `t8a`. -/
def d8a : TemproData := (TemproDatabase.add_email d8 1 "a@x" t8a).1

/-- A store with two registered users and no emails. -/
def d9 : TemproData :=
  { users := [("1", ⟨0, 0⟩), ("2", ⟨0, 0⟩)], emails := [],
    statistics := ⟨2, 0, 0, 0⟩, settings := ⟨5, 24⟩ }

/-- `d9` after owner 1 creates an email at `t8a` (whole second 100). -/
def d9a : TemproData := (TemproDatabase.add_email d9 1 "a@x" t8a).1

/-- `d9a` after owner 1 creates a second email at `t8b` (whole second 101). -/
def d9b : TemproData := (TemproDatabase.add_email d9a 1 "b@x" t8b).1

/-- `d9a` after owner 2 creates an email at `t8c` (whole second 100 again). -/
def d9c : TemproData := (TemproDatabase.add_email d9a 2 "c@x" t8c).1

/-- C8 amended, witnessed on both disjuncts: the same owner creating in seconds
100 and 101 gets the distinct ids `"1_100"` and `"1_101"`, and a different
owner creating within the same whole second 100 gets the distinct id
`"2_100"`; in each case both records are present afterwards. -/
theorem C8_amended_witness :
    (("1_100" : String) ≠ "1_101"
      ∧ dlookup d9b.emails "1_100" = dlookup d9a.emails "1_100"
      ∧ (dlookup d9a.emails "1_100").isSome = true
      ∧ (dlookup d9b.emails "1_101").isSome = true)
    ∧ (("1_100" : String) ≠ "2_100"
      ∧ dlookup d9c.emails "1_100" = dlookup d9a.emails "1_100"
      ∧ (dlookup d9a.emails "1_100").isSome = true
      ∧ (dlookup d9c.emails "2_100").isSome = true) :=
  ⟨C8_amended_distinct_keys_distinct_ids d9 1 1 "a@x" "b@x" t8a t8b (Or.inr (by decide))
      d9a d9b "1_100" "1_101" (by decide) (by decide),
   C8_amended_distinct_keys_distinct_ids d9 1 2 "a@x" "c@x" t8a t8c (Or.inl (by decide))
      d9a d9c "1_100" "2_100" (by decide) (by decide)⟩

/-- C8 counterexample: two creations by the same owner at distinct instants
inside the same whole second both get the id `"1_100"`; after the second call a
single record remains and it is the second one — the first record was
overwritten, not preserved as a distinct record. -/
theorem C8_counterexample :
    (TemproDatabase.add_email d8 1 "a@x" t8a).2 = .ok "1_100" ∧
    (TemproDatabase.add_email d8a 1 "b@x" t8c).2 = .ok "1_100" ∧
    (TemproDatabase.add_email d8a 1 "b@x" t8c).1.emails.length = 1 ∧
    dlookup (TemproDatabase.add_email d8a 1 "b@x" t8c).1.emails "1_100"
      = some ⟨"1_100", 1, "b@x", t8c, t8c + 24 * (3600 * sec), true, 0, none, "x"⟩ := by
  refine ⟨by decide, by decide, by decide, by decide⟩

/-! ### Inbox poll cache: `src/src/cache_manager.py`, class `CacheManager` -/

/-- One cache entry, as written by `CacheManager.set`. -/
structure CacheEntry (α : Type) where
  value : α
  expires_at : ℤ
  created_at : ℤ
  access_count : Nat
deriving DecidableEq

/-- The mutable state of a `CacheManager`: the `self.cache` dict. -/
structure CacheManager (α : Type) where
  cache : List (String × CacheEntry α)
deriving DecidableEq

/-- `CacheManager.get(key, default)` at clock value `now`: a present entry with
`expires_at < now` is deleted and the default returned; otherwise the stored
value is returned. -/
def CacheManager.get (c : CacheManager α) (key : String) (default : α) (now : ℤ) :
    α × CacheManager α :=
  match dlookup c.cache key with
  | none => (default, c)
  | some entry =>
    if entry.expires_at < now then (default, { c with cache := ddel c.cache key })
    else (entry.value, c)

/-- `CacheManager.exists(key)` at clock value `now` (same expiry handling as
`get`). -/
def CacheManager.exists' (c : CacheManager α) (key : String) (now : ℤ) :
    Bool × CacheManager α :=
  match dlookup c.cache key with
  | none => (false, c)
  | some entry =>
    if entry.expires_at < now then (false, { c with cache := ddel c.cache key })
    else (true, c)

/-- C4 counterexample: an entry whose `expires_at` equals the current clock
value is still served as a hit — the stored value, not the default, is
returned — though the claim requires a hit only when `now` is strictly below
`expires_at`. -/
theorem C4_counterexample :
    (CacheManager.get (⟨[("k", ⟨7, 5 * sec, 0, 0⟩)]⟩ : CacheManager Nat) "k" 0 (5 * sec)).1 = 7 := by
  decide

/-- C4 (amended): for a key holding an entry, `get` returns the stored value
exactly when `now ≤ expires_at`; an entry expires only once the clock is
strictly past its `expires_at`. -/
theorem C4_amended_hit_iff_now_le_expiry (c : CacheManager α) (key : String)
    (entry : CacheEntry α) (default : α) (now : ℤ)
    (hfound : dlookup c.cache key = some entry)
    (hdist : default ≠ entry.value) :
    ((CacheManager.get c key default now).1 = entry.value ↔ now ≤ entry.expires_at) := by
  unfold CacheManager.get
  rw [hfound]
  dsimp only
  by_cases h : entry.expires_at < now
  · rw [if_pos h]
    constructor
    · intro hv
      exact absurd hv hdist
    · intro hle
      omega
  · rw [if_neg h]
    constructor
    · intro _
      omega
    · intro _
      rfl

/-- C4 amended, witnessed: at `now` equal to the entry's `expires_at` the
stored value is returned. -/
theorem C4_amended_witness :
    (CacheManager.get (⟨[("k", ⟨7, 5 * sec, 0, 0⟩)]⟩ : CacheManager Nat) "k" 0 (5 * sec)).1 = 7 ∧
    (CacheManager.get (⟨[("k", ⟨7, 5 * sec, 0, 0⟩)]⟩ : CacheManager Nat) "k" 0 (6 * sec)).1 ≠ 7 := by
  constructor
  · exact (C4_amended_hit_iff_now_le_expiry (⟨[("k", ⟨7, 5 * sec, 0, 0⟩)]⟩ : CacheManager Nat)
      "k" ⟨7, 5 * sec, 0, 0⟩ 0 (5 * sec) (by decide) (by decide)).mpr (by decide)
  · intro hv
    have h7 := (C4_amended_hit_iff_now_le_expiry (⟨[("k", ⟨7, 5 * sec, 0, 0⟩)]⟩ : CacheManager Nat)
      "k" ⟨7, 5 * sec, 0, 0⟩ 0 (6 * sec) (by decide) (by decide)).mp hv
    revert h7
    decide

/-- C10: reading an expired entry mutates the cache — `get` on a key whose
entry has `expires_at` strictly before `now` returns the default and deletes
the entry, and `exists` likewise returns `false` and deletes it; afterwards the
key is absent. -/
theorem C10_expired_read_deletes_entry (c : CacheManager α) (key : String)
    (entry : CacheEntry α) (default : α) (now : ℤ)
    (hfound : dlookup c.cache key = some entry)
    (hexp : entry.expires_at < now) :
    (CacheManager.get c key default now).1 = default
      ∧ dlookup (CacheManager.get c key default now).2.cache key = none
      ∧ (CacheManager.exists' c key now).1 = false
      ∧ dlookup (CacheManager.exists' c key now).2.cache key = none := by
  unfold CacheManager.get CacheManager.exists'
  rw [hfound]
  dsimp only
  simp only [if_pos hexp]
  exact ⟨trivial, dlookup_ddel_self _ _, trivial, dlookup_ddel_self _ _⟩

/-- C10, witnessed: a concrete expired entry is deleted by both reads. -/
theorem C10_witness :
    (CacheManager.get (⟨[("k", ⟨7, 5 * sec, 0, 0⟩)]⟩ : CacheManager Nat) "k" 0 (9 * sec)).1 = 0
      ∧ dlookup (CacheManager.get (⟨[("k", ⟨7, 5 * sec, 0, 0⟩)]⟩ : CacheManager Nat) "k" 0 (9 * sec)).2.cache "k" = none
      ∧ (CacheManager.exists' (⟨[("k", ⟨7, 5 * sec, 0, 0⟩)]⟩ : CacheManager Nat) "k" (9 * sec)).1 = false
      ∧ dlookup (CacheManager.exists' (⟨[("k", ⟨7, 5 * sec, 0, 0⟩)]⟩ : CacheManager Nat) "k" (9 * sec)).2.cache "k" = none :=
  C10_expired_read_deletes_entry (⟨[("k", ⟨7, 5 * sec, 0, 0⟩)]⟩ : CacheManager Nat)
    "k" ⟨7, 5 * sec, 0, 0⟩ 0 (9 * sec) (by decide) (by decide)

/-! ### Provider fetch: `src/api_handler.py`, class `EmailAPI`, `get_messages` -/

/-- The possible outcomes of the HTTP fetch inside `get_messages`: a JSON list
of messages, a non-list JSON value, or a raised exception (connection error,
timeout, non-2xx status). -/
inductive FetchOutcome (μ : Type) where
  | ok (messages : List μ)
  | nonList
  | failure
deriving DecidableEq

/-- `EmailAPI.get_messages(email)` given the provider outcome: every failure
path collapses to the empty list (`return []` in the `except` handler and the
non-list guard; addresses without `'@'` are also mapped to `[]`). -/
def EmailAPI.get_messages (email : String) (outcome : FetchOutcome μ) : List μ :=
  if ¬ email.data.contains '@' then []
  else
    match outcome with
    | .ok messages => messages
    | .nonList => []
    | .failure => []

/-- C9 counterexample: a provider failure produces the same value as a
successful fetch of an empty inbox — the empty list — so no
`UpstreamUnavailable` error reaches the caller and the two cases are
indistinguishable from the return value. -/
theorem C9_counterexample :
    EmailAPI.get_messages "a@1secmail.com" (FetchOutcome.failure : FetchOutcome Nat) = []
      ∧ EmailAPI.get_messages "a@1secmail.com" (FetchOutcome.failure : FetchOutcome Nat)
        = EmailAPI.get_messages "a@1secmail.com" (FetchOutcome.ok ([] : List Nat)) := by
  constructor <;> decide

/-- C9 (amended): for every address, a provider failure or timeout makes
`get_messages` return the empty list — identical to an empty inbox — rather
than surfacing an error; the function's return type carries no error channel at
all. -/
theorem C9_amended_failure_returns_empty (email : String) :
    EmailAPI.get_messages email (FetchOutcome.failure : FetchOutcome μ) = []
      ∧ EmailAPI.get_messages email (FetchOutcome.failure : FetchOutcome μ)
        = EmailAPI.get_messages email (FetchOutcome.ok ([] : List μ)) := by
  unfold EmailAPI.get_messages
  by_cases h : ¬ email.data.contains '@' = true
  · rw [if_pos h]
    exact ⟨rfl, rfl⟩
  · rw [if_neg h]
    exact ⟨rfl, rfl⟩
